import Mathlib

/-!
Shallow embedding of the live session/subscription coordination core of
the transcript-translate-server repository (src/src/server.js): the
Socket.IO participant namespace (join / leave / disconnect handlers and
the subscriberTracker ledger), the control namespace (heartbeat,
transcriptReady, streamingStarted / streamingStopped with their timers),
and the raw per-service WebSocket connection list.

JavaScript Map objects are modelled as association lists in insertion
order (Map.set keeps the position of an existing key and appends new
keys at the end; Map iteration order is insertion order, which is what
the emitted `subscribers` snapshots observe).  A JavaScript value that
may be `undefined` (a missing `serviceId` field) is modelled as
`Option String`; interpolating it into a template string yields the
text "undefined", exactly as in JavaScript.
-/

/-- A JavaScript string value that may be `undefined`. -/
abbrev JSStr := Option String

/-- Template-string interpolation of a possibly-undefined value. -/
def jsStr : JSStr → String
  | none => "undefined"
  | some s => s

/-- `Map.get`: first (unique) binding of the key, if any. -/
def mapGet {κ α : Type} [DecidableEq κ] : List (κ × α) → κ → Option α
  | [], _ => none
  | (k', v) :: r, k => if k' = k then some v else mapGet r k

/-- `Map.set`: update the binding in place, or append a new one. -/
def mapSet {κ α : Type} [DecidableEq κ] : List (κ × α) → κ → α → List (κ × α)
  | [], k, v => [(k, v)]
  | (k', v') :: r, k, v => if k' = k then (k, v) :: r else (k', v') :: mapSet r k v

/-- `Map.delete`: remove the binding(s) of the key. -/
def mapDelete {κ α : Type} [DecidableEq κ] : List (κ × α) → κ → List (κ × α)
  | [], _ => []
  | (k', v) :: r, k => if k' = k then mapDelete r k else (k', v) :: mapDelete r k

/-- Idempotent set insertion (socket.io room membership add). -/
def listInsert {α : Type} [DecidableEq α] (l : List α) (a : α) : List α :=
  if a ∈ l then l else l ++ [a]

/-- Remove every occurrence of an element. -/
def listRemove {α : Type} [DecidableEq α] : List α → α → List α
  | [], _ => []
  | b :: r, a => if b = a then listRemove r a else b :: listRemove r a

/-- Remove the first occurrence of an element (`indexOf` + `splice`). -/
def listRemoveOne {α : Type} [DecidableEq α] : List α → α → List α
  | [], _ => []
  | b :: r, a => if b = a then r else b :: listRemoveOne r a

/-- Observable effects of the handlers: room emits and the calls into
the language-activation collaborator. -/
inductive Emit where
  | subscribers (serviceId : JSStr) (languages : List (String × Int))
  | livestreaming (room : String)
  | newTranscript (serviceId : String) (transcript : String) (timestamp : Nat)
  | transcriptSent (serviceCode : String)
  | translated (room : String) (language : String) (text : String)
  | addLang (serviceId : JSStr) (language : String)
  | removeLang (serviceId : JSStr) (language : String)
  deriving DecidableEq

/-- The payload of a `join` / `leave` event: either a string
(`"serviceId:language"` or a bare serviceId) or an object whose
`serviceId` and `language` fields may each be absent. -/
inductive JoinPayload where
  | str (s : String)
  | obj (serviceId : Option String) (language : Option String)
  deriving DecidableEq

/-- Payload parsing of the `join` / `leave` handlers in server.js: a
string containing a colon splits into serviceId and language, a bare
string is a serviceId with language "unknown"; on an object,
`serviceId` is read without any default (it stays undefined when
missing) and `language` falls back to "unknown" when missing or empty
(the JavaScript or-fallback to the text unknown). -/
def parsePayload : JoinPayload → JSStr × String
  | .str s =>
      if s.contains ':' then
        let parts := s.splitOn ":"
        (some (parts.headD ""), (parts.drop 1).headD "")
      else
        (some s, "unknown")
  | .obj osid olang =>
      (osid,
        match olang with
        | some l => if l = "" then "unknown" else l
        | none => "unknown")

/-- Global coordination state of the participant namespace:
`subscriberTracker` (serviceId → language → count), the per-service
active-translation-language sets, the translation-wiring registrations,
the socket.io adapter room membership (room → socket ids, ground
truth), and the per-socket joined-room tracking maps
(socket id → room → (serviceId, language)). -/
structure ServerState where
  subscriberTracker : List (JSStr × List (String × Int))
  serviceLanguageMap : List (JSStr × List String)
  serviceSubscriptionMap : List JSStr
  adapterRooms : List (String × List String)
  socketRooms : List (String × List (String × JSStr × String))
  deriving DecidableEq

def initialState : ServerState :=
  { subscriberTracker := []
    serviceLanguageMap := []
    serviceSubscriptionMap := []
    adapterRooms := []
    socketRooms := [] }

/-- `socket.join(room)`: create the room if needed and add the socket
(idempotent). -/
def adapterJoin (rooms : List (String × List String)) (room sock : String) :
    List (String × List String) :=
  mapSet rooms room (listInsert ((mapGet rooms room).getD []) sock)

/-- `socket.leave(room)`: remove the socket from the room if the room
exists. -/
def adapterLeave (rooms : List (String × List String)) (room sock : String) :
    List (String × List String) :=
  match mapGet rooms room with
  | none => rooms
  | some ms => mapSet rooms room (listRemove ms sock)

/-- On transport disconnect socket.io removes the socket from every
room before the `disconnect` handler runs. -/
def adapterDisconnect (rooms : List (String × List String)) (sock : String) :
    List (String × List String) :=
  rooms.map (fun p => (p.1, listRemove p.2 sock))

/-- `adapter.rooms.get(room)?.size || 0`. -/
def roomSize (rooms : List (String × List String)) (room : String) : Nat :=
  ((mapGet rooms room).getD []).length

/-- The joined-room tracking map of one socket. -/
def srGet (st : ServerState) (sock : String) : List (String × JSStr × String) :=
  (mapGet st.socketRooms sock).getD []

/-- Modelled from the spec: `addTranslationLanguageToService` lives in
the missing `src/translate.js`; per §4.1/§4.3 it adds the language to
the set of actively translated languages of the service in
`serviceLanguageMap`. -/
def addTranslationLanguageToService (m : List (JSStr × List String))
    (sid : JSStr) (lang : String) : List (JSStr × List String) :=
  mapSet m sid (listInsert ((mapGet m sid).getD []) lang)

/-- Modelled from the spec: `removeTranslationLanguageFromService` lives
in the missing `src/translate.js`; per §4.1 it removes the language from
the set of actively translated languages of the service. -/
def removeTranslationLanguageFromService (m : List (JSStr × List String))
    (sid : JSStr) (lang : String) : List (JSStr × List String) :=
  match mapGet m sid with
  | none => m
  | some ls => mapSet m sid (listRemove ls lang)

/-- Modelled from the spec: `registerForServiceTranscripts` lives in the
missing `src/translate.js`; per §4.3/§6 it is the idempotent
"ensure this service is wired for translation event distribution" call,
recorded in `serviceSubscriptionMap` (the server.js caller guards on the
key being absent). -/
def registerForServiceTranscripts (l : List JSStr) (sid : JSStr) : List JSStr :=
  listInsert l sid

/-- The participant-namespace `join` handler (server.js lines
1036-1110): parse the payload, record the room in the tracking map of
the socket, join the adapter room, ensure the translation wiring, and
— for a non-reserved language — activate the language, increment the
subscriber count and emit a `subscribers` snapshot to the control
room. -/
def join (sock : String) (payload : JoinPayload) (st : ServerState) :
    ServerState × List Emit :=
  let p := parsePayload payload
  let sid := p.1
  let language := p.2
  let room := jsStr sid ++ ":" ++ language
  let st1 := { st with
    socketRooms := mapSet st.socketRooms sock
      (mapSet (srGet st sock) room (sid, language)) }
  let st2 := { st1 with adapterRooms := adapterJoin st1.adapterRooms room sock }
  let st3 :=
    if sid ∈ st2.serviceSubscriptionMap then st2
    else { st2 with
      serviceSubscriptionMap := registerForServiceTranscripts st2.serviceSubscriptionMap sid }
  if language = "transcript" ∨ language = "heartbeat" then
    (st3, [])
  else
    let st4 := { st3 with
      serviceLanguageMap := addTranslationLanguageToService st3.serviceLanguageMap sid language }
    let tracker :=
      if (mapGet st4.subscriberTracker sid).isSome then st4.subscriberTracker
      else mapSet st4.subscriberTracker sid []
    let m := (mapGet tracker sid).getD []
    let current := (mapGet m language).getD 0
    let m' := mapSet m language (current + 1)
    ({ st4 with subscriberTracker := mapSet tracker sid m' },
     [Emit.addLang sid language, Emit.subscribers sid m'])

/-- The subscriber-count cleanup block shared verbatim by the `leave`
handler and the per-room body of the `disconnect` handler (server.js
lines 1141-1183 and 1193-1233): skip reserved channels; if the tracker
has an entry for the pair, delete it when the count is ≤ 1 and
decrement it otherwise, deactivate the language exactly when the
adapter room size is 0, emit the updated `subscribers` snapshot, and
drop the per-service tracker when it became empty. -/
def reconcileRoom (sid : JSStr) (language room : String) (st : ServerState) :
    ServerState × List Emit :=
  if language = "transcript" ∨ language = "heartbeat" then
    (st, [])
  else
    match mapGet st.subscriberTracker sid with
    | none => (st, [])
    | some m =>
      match mapGet m language with
      | none => (st, [])
      | some count =>
        let m' := if count ≤ 1 then mapDelete m language
                  else mapSet m language (count - 1)
        let st1 := { st with subscriberTracker := mapSet st.subscriberTracker sid m' }
        let p :=
          if roomSize st1.adapterRooms room = 0 then
            ({ st1 with
               serviceLanguageMap :=
                 removeTranslationLanguageFromService st1.serviceLanguageMap sid language },
             [Emit.removeLang sid language])
          else (st1, ([] : List Emit))
        let st2 := p.1
        let ems := p.2 ++ [Emit.subscribers sid m']
        if m' = [] then
          ({ st2 with subscriberTracker := mapDelete st2.subscriberTracker sid }, ems)
        else (st2, ems)

/-- The participant-namespace `leave` handler (server.js lines
1113-1184): parse the payload, leave the adapter room, drop the room
from the tracking map of the socket, then run the cleanup block. -/
def leave (sock : String) (payload : JoinPayload) (st : ServerState) :
    ServerState × List Emit :=
  let p := parsePayload payload
  let sid := p.1
  let language := p.2
  let room := jsStr sid ++ ":" ++ language
  let st1 := { st with adapterRooms := adapterLeave st.adapterRooms room sock }
  let st2 := { st1 with
    socketRooms := mapSet st1.socketRooms sock (mapDelete (srGet st1 sock) room) }
  reconcileRoom sid language room st2

/-- The participant-namespace `disconnect` handler (server.js lines
1186-1238): socket.io has already removed the socket from every adapter
room; the handler then iterates the FULL tracking map of the socket (in
insertion order), runs the cleanup block for each recorded room, and
finally clears the tracking map. -/
def disconnect (sock : String) (st : ServerState) : ServerState × List Emit :=
  let st0 := { st with adapterRooms := adapterDisconnect st.adapterRooms sock }
  let entries := srGet st0 sock
  let r := entries.foldl
    (fun (acc : ServerState × List Emit) e =>
      let r' := reconcileRoom e.2.1 e.2.2 e.1 acc.1
      (r'.1, acc.2 ++ r'.2))
    (st0, [])
  ({ r.1 with socketRooms := mapSet r.1.socketRooms sock [] }, r.2)

/-- The effective subscriber count of a (serviceId, language) pair: the
stored entry, or 0 when the service or the language has no entry. -/
def trackerCount (st : ServerState) (sid : JSStr) (lang : String) : Int :=
  (mapGet ((mapGet st.subscriberTracker sid).getD []) lang).getD 0

/-!  Control namespace: liveness state and timers.

`activeServiceIds` is the Map(serviceId → true) of server.js, modelled
as the list of its keys; `timers` are the pending `setTimeout`
callbacks scheduled by `streamingStarted`, each recorded as
(fire time, serviceId) in scheduling order.  Each callback
unconditionally deletes its serviceId when it fires — server.js stores
no timer handle and never calls `clearTimeout`. -/

structure CtrlState where
  activeServiceIds : List String
  timers : List (Nat × String)
  deriving DecidableEq

def initialCtrl : CtrlState := { activeServiceIds := [], timers := [] }

/-- The control-namespace `heartbeat` handler (server.js lines
953-974): unconditionally mark the service active; when the status is
"livestreaming" or "streaming", additionally emit `livestreaming` to
the participant room `serviceCode:heartbeat`.  No timer is touched. -/
def heartbeat (serviceCode status : String) (st : CtrlState) :
    CtrlState × List Emit :=
  let st1 := { st with activeServiceIds := listInsert st.activeServiceIds serviceCode }
  if status = "livestreaming" ∨ status = "streaming" then
    (st1, [Emit.livestreaming (serviceCode ++ ":heartbeat")])
  else
    (st1, [])

/-- The control-namespace `streamingStarted` handler (server.js lines
999-1013): mark the service active and schedule, with `setTimeout`, an
unconditional delete of the service at `now + timeout`.  The prior
timers are left in place (no handle is kept, no `clearTimeout`). -/
def streamingStarted (timeout now : Nat) (serviceId : String) (st : CtrlState) :
    CtrlState :=
  { st with
    activeServiceIds := listInsert st.activeServiceIds serviceId
    timers := st.timers ++ [(now + timeout, serviceId)] }

/-- The control-namespace `streamingStopped` handler (server.js lines
1016-1020): delete the service from the active map.  Pending timers are
not cancelled. -/
def streamingStopped (serviceId : String) (st : CtrlState) : CtrlState :=
  { st with activeServiceIds := listRemove st.activeServiceIds serviceId }

/-- Fire every timer due at or before `now`: each due callback deletes
its serviceId from the active map and is removed from the pending
list. -/
def fireDue (now : Nat) (st : CtrlState) : CtrlState :=
  { activeServiceIds :=
      (st.timers.filter (fun t => t.1 ≤ now)).foldl
        (fun a t => listRemove a t.2) st.activeServiceIds
    timers := st.timers.filter (fun t => ¬ t.1 ≤ now) }

/-- A timed inbound control-namespace event. -/
inductive CtrlEvent where
  | hb (t : Nat) (serviceCode status : String)
  | started (t : Nat) (serviceId : String)
  | stopped (t : Nat) (serviceId : String)
  deriving DecidableEq

def eventTime : CtrlEvent → Nat
  | .hb t _ _ => t
  | .started t _ => t
  | .stopped t _ => t

/-- Event-loop step: timers due before the event fire first, then the
handler runs. -/
def applyCtrl (timeout : Nat) (st : CtrlState) : CtrlEvent → CtrlState
  | .hb t sc status => (heartbeat sc status (fireDue t st)).1
  | .started t sid => streamingStarted timeout t sid (fireDue t st)
  | .stopped t sid => streamingStopped sid (fireDue t st)

/-- The control state observed at time `T`, given the inbound events in
time order: process every event with time ≤ T, then fire the timers due
by `T`. -/
def ctrlStateAt (timeout : Nat) (events : List CtrlEvent) (T : Nat) : CtrlState :=
  fireDue T ((events.filter (fun e => eventTime e ≤ T)).foldl (applyCtrl timeout) initialCtrl)

/-- Whether the service is marked active (live) at time `T`. -/
def isLiveAt (timeout : Nat) (events : List CtrlEvent) (T : Nat)
    (serviceId : String) : Bool :=
  serviceId ∈ (ctrlStateAt timeout events T).activeServiceIds

/-- The control-namespace `transcriptReady` handler needs the
per-language distribution of the missing `src/translate.js`.
Modelled from the spec: the translation collaborator
(`transcriptAvailServiceSub` subscriber installed by
`registerForServiceTranscripts`) publishes, for each currently-active
language of the service, exactly one translated message to that
room of that language, the translated text coming back from the external
translator `tr`. -/
def translationFanout (tr : String → String → String)
    (serviceCode transcript : String)
    (langMap : List (JSStr × List String)) : List Emit :=
  ((mapGet langMap (some serviceCode)).getD []).map
    (fun lang =>
      Emit.translated (serviceCode ++ ":" ++ lang) lang (tr lang transcript))

/-- The control-namespace `transcriptReady` handler (server.js lines
976-997): hand the transcript to the translation system (one published
message per active language, see `translationFanout`), mirror a single
`newTranscript` event with the transcript and a timestamp to the
participant audience of the service, and acknowledge with
`transcriptSent`. -/
def transcriptReady (tr : String → String → String) (now : Nat)
    (serviceCode transcript : String) (st : ServerState) : List Emit :=
  translationFanout tr serviceCode transcript st.serviceLanguageMap
    ++ [Emit.newTranscript serviceCode transcript now,
        Emit.transcriptSent serviceCode]

/-!  Raw per-service WebSocket transport (server.js lines 1263-1336). -/

/-- `serviceConnections`: serviceId → list of connections (modelled by
numeric connection ids). -/
abbrev WssState := List (String × List Nat)

/-- The wss connection handler: `serviceId` is read from the
URL query (absent query parameter gives `null`); a falsy serviceId
(null or the empty string) terminates the connection immediately and
touches nothing; otherwise the connection is appended to the list of
list.  The returned Bool is true when the connection was terminated. -/
def wssConnection (connId : Nat) (q : Option String) (st : WssState) :
    Bool × WssState :=
  match q with
  | none => (true, st)
  | some sid =>
      if sid = "" then (true, st)
      else (false, mapSet st sid (((mapGet st sid).getD []) ++ [connId]))

/-- The ws close handler: remove this connection (first
occurrence, `indexOf` + `splice`) from the list of the service and delete
the list when it becomes empty. -/
def wssClose (sid : String) (connId : Nat) (st : WssState) : WssState :=
  match mapGet st sid with
  | none => st
  | some conns =>
      let conns' := listRemoveOne conns connId
      if conns' = [] then mapDelete st sid else mapSet st sid conns'

/-!  Abstract join/leave event sequences on one fixed
(serviceId, language) pair, for the ledger-balance property. -/

/-- A join or leave event on the fixed pair, tagged with the socket
that sent it. -/
inductive PEvent where
  | join (sock : String)
  | leave (sock : String)
  deriving DecidableEq

/-- Run a sequence of join/leave events on the pair (sid, lang), each
with the object payload `{serviceId: sid, language: lang}`. -/
def runPair (sid lang : String) (evs : List PEvent) (st : ServerState) :
    ServerState :=
  evs.foldl
    (fun s e =>
      match e with
      | .join sock => (join sock (.obj (some sid) (some lang)) s).1
      | .leave sock => (leave sock (.obj (some sid) (some lang)) s).1)
    st

/-- The net number of joins not yet matched by a leave: each leave
cancels one outstanding join when one exists (truncated at 0). -/
def netJoins (evs : List PEvent) : Nat :=
  evs.foldl
    (fun n e => match e with | .join _ => n + 1 | .leave _ => n - 1) 0

/-- The shape of the subscriber tracker reachable by join/leave events
on one single pair: empty at net count 0, otherwise exactly one service
entry holding exactly the one language count. -/
def trackerShape (sid lang : String) (n : Nat) : List (JSStr × List (String × Int)) :=
  if n = 0 then [] else [(some sid, [(lang, (n : Int))])]

/-- Well-formedness of the subscriber tracker: no service holds an
empty language map (emptied services are deleted), and every stored
count is at least 1. -/
def goodTracker (st : ServerState) : Prop :=
  ∀ p ∈ st.subscriberTracker, p.2 ≠ [] ∧ ∀ q ∈ p.2, 1 ≤ q.2

/-- Every `subscribers` snapshot in the emit list reports only
languages with a count of at least 1. -/
def goodSnapshots (ems : List Emit) : Prop :=
  ∀ e ∈ ems, ∀ sid ls, e = Emit.subscribers sid ls → ∀ q ∈ ls, 1 ≤ q.2

/-- All keys of the per-service WebSocket connection list are non-empty
serviceIds. -/
def wssKeysNonEmpty (st : WssState) : Prop :=
  ∀ p ∈ st, p.1 ≠ ""

/-!  Helper lemmas about the map and list primitives. -/

theorem mapGet_set_self {κ α : Type} [DecidableEq κ] (m : List (κ × α)) (k : κ) (v : α) :
    mapGet (mapSet m k v) k = some v := by
  induction m with
  | nil => simp [mapSet, mapGet]
  | cons p r ih =>
      obtain ⟨k', v'⟩ := p
      by_cases h : k' = k <;> simp [mapSet, mapGet, h, ih]

theorem mapGet_delete_self {κ α : Type} [DecidableEq κ] (m : List (κ × α)) (k : κ) :
    mapGet (mapDelete m k) k = none := by
  induction m with
  | nil => simp [mapDelete, mapGet]
  | cons p r ih =>
      obtain ⟨k', v'⟩ := p
      by_cases h : k' = k <;> simp [mapDelete, mapGet, h, ih]

theorem mem_mapSet {κ α : Type} [DecidableEq κ] {m : List (κ × α)} {k : κ} {v : α}
    {p : κ × α} (hp : p ∈ mapSet m k v) : p = (k, v) ∨ p ∈ m := by
  induction m with
  | nil =>
      simp only [mapSet, List.mem_singleton] at hp
      exact Or.inl hp
  | cons q r ih =>
      obtain ⟨k', v'⟩ := q
      by_cases h : k' = k
      · simp only [mapSet, if_pos h, List.mem_cons] at hp
        rcases hp with h1 | h1
        · exact Or.inl h1
        · exact Or.inr (List.mem_cons_of_mem _ h1)
      · simp only [mapSet, if_neg h, List.mem_cons] at hp
        rcases hp with h1 | h1
        · exact Or.inr (h1 ▸ List.mem_cons_self _ _)
        · rcases ih h1 with h2 | h2
          · exact Or.inl h2
          · exact Or.inr (List.mem_cons_of_mem _ h2)

theorem mem_mapDelete {κ α : Type} [DecidableEq κ] {m : List (κ × α)} {k : κ}
    {p : κ × α} (hp : p ∈ mapDelete m k) : p ∈ m := by
  induction m with
  | nil => simp [mapDelete] at hp
  | cons q r ih =>
      obtain ⟨k', v'⟩ := q
      by_cases h : k' = k
      · simp only [mapDelete, if_pos h] at hp
        exact List.mem_cons_of_mem _ (ih hp)
      · simp only [mapDelete, if_neg h, List.mem_cons] at hp
        rcases hp with h1 | h1
        · exact h1 ▸ List.mem_cons_self _ _
        · exact List.mem_cons_of_mem _ (ih h1)

theorem mapGet_mem {κ α : Type} [DecidableEq κ] {m : List (κ × α)} {k : κ} {v : α}
    (h : mapGet m k = some v) : (k, v) ∈ m := by
  induction m with
  | nil => simp [mapGet] at h
  | cons q r ih =>
      obtain ⟨k', v'⟩ := q
      by_cases hk : k' = k
      · simp only [mapGet, if_pos hk, Option.some.injEq] at h
        subst hk; subst h; exact List.mem_cons_self _ _
      · simp only [mapGet, if_neg hk] at h
        exact List.mem_cons_of_mem _ (ih h)

theorem mapSet_ne_nil {κ α : Type} [DecidableEq κ] (m : List (κ × α)) (k : κ) (v : α) :
    mapSet m k v ≠ [] := by
  cases m with
  | nil => simp [mapSet]
  | cons q r =>
      obtain ⟨k', v'⟩ := q
      by_cases h : k' = k <;> simp [mapSet, h]

/-!  Claim theorems. -/

/-- C3, counterexample.  The claim says the language-deactivation side
effect fires only if the decremented count reaches 0 (AND the room is
empty).  On the code it fires whenever the adapter room size is 0,
regardless of the counter: socket "A" joins room "100:es" twice (the
adapter join is idempotent, the tracker counts 2), then leaves once;
the tracker count is decremented to 1 (not 0), the adapter room is
empty, and `removeTranslationLanguageFromService` fires anyway. -/
theorem C3_deactivation_counterexample :
    trackerCount
        (leave "A" (.obj (some "100") (some "es"))
          (join "A" (.obj (some "100") (some "es"))
            (join "A" (.obj (some "100") (some "es")) initialState).1).1).1
        (some "100") "es" = 1
    ∧ Emit.removeLang (some "100") "es" ∈
        (leave "A" (.obj (some "100") (some "es"))
          (join "A" (.obj (some "100") (some "es"))
            (join "A" (.obj (some "100") (some "es")) initialState).1).1).2 := by
  decide

/-- C4, evaluation at the failing input.  `streamingStarted` schedules
a `setTimeout` that unconditionally deletes the service and keeps no
handle, so re-invocation stacks a second timer instead of replacing the
first: after streamingStarted("123") at t=0 and again at t=5 with
timeout 10, both timers (due at 10 and 15) are pending, the service is
still live at t=9, and the timer scheduled before the renewal flips it
offline at t=10, earlier than 5 + 10. -/
theorem C4_stacked_timer_bug :
    (ctrlStateAt 10 [.started 0 "123", .started 5 "123"] 5).timers
        = [(10, "123"), (15, "123")]
    ∧ isLiveAt 10 [.started 0 "123", .started 5 "123"] 9 "123" = true
    ∧ isLiveAt 10 [.started 0 "123", .started 5 "123"] 10 "123" = false
    ∧ 10 < 5 + 10 := by
  decide

/-- C5, counterexample.  The claim says a streaming heartbeat applies
the streaming transition with the configured timeout (so that, per the
spec, the service goes offline once the timeout elapses with no further
heartbeat).  The heartbeat handler never schedules any timer: after a
single heartbeat with status "streaming" at t=0 and timeout 10, no
timer is pending and the service is still live at t=11. -/
theorem C5_no_timeout_counterexample :
    (ctrlStateAt 10 [.hb 0 "123" "streaming"] 11).timers = []
    ∧ isLiveAt 10 [.hb 0 "123" "streaming"] 11 "123" = true := by
  decide

/-- C5, amended.  The heartbeat handler always marks the service active
(regardless of status) and leaves the timers untouched; it emits the
`livestreaming` on-air indicator to the heartbeat room of the service
exactly when the status is "livestreaming" or "streaming", and emits
nothing otherwise.  No expiry is scheduled. -/
theorem C5_heartbeat_amended (st : CtrlState) (serviceCode status : String) :
    (heartbeat serviceCode status st).1.activeServiceIds
        = listInsert st.activeServiceIds serviceCode
    ∧ (heartbeat serviceCode status st).1.timers = st.timers
    ∧ ((heartbeat serviceCode status st).2
          = [Emit.livestreaming (serviceCode ++ ":heartbeat")]
        ↔ (status = "livestreaming" ∨ status = "streaming"))
    ∧ ((heartbeat serviceCode status st).2 = []
        ↔ ¬(status = "livestreaming" ∨ status = "streaming")) := by
  by_cases h : status = "livestreaming" ∨ status = "streaming" <;>
    simp [heartbeat, h]

/-- C7, counterexample.  The claim says a join whose payload lacks a
serviceId is rejected with no state mutated.  The handler has no guard:
a join with payload `{}` (no serviceId, no language) proceeds with the
undefined serviceId, joins the adapter room "undefined:unknown" and
increments the subscriber count stored under the undefined key. -/
theorem C7_malformed_join_counterexample :
    (join "A" (.obj none none) initialState).1.subscriberTracker
        = [(none, [("unknown", 1)])]
    ∧ mapGet (join "A" (.obj none none) initialState).1.adapterRooms
        "undefined:unknown" = some ["A"] := by
  decide

theorem mem_listInsert_self {α : Type} [DecidableEq α] (l : List α) (a : α) :
    a ∈ listInsert l a := by
  by_cases h : a ∈ l <;> simp [listInsert, h]

/-- C6.  Joining or leaving a reserved channel ("transcript" or
"heartbeat") leaves the subscriber counts and the per-service
active-translation-language set unchanged and emits no `subscribers`
snapshot (and no activation/deactivation call): the reserved-channel
guard skips the whole accounting block in both handlers. -/
theorem C6_reserved_channels (st : ServerState) (sock : String)
    (osid : Option String) (lang : String)
    (h : lang = "transcript" ∨ lang = "heartbeat") :
    (join sock (.obj osid (some lang)) st).1.subscriberTracker = st.subscriberTracker
    ∧ (join sock (.obj osid (some lang)) st).1.serviceLanguageMap = st.serviceLanguageMap
    ∧ (join sock (.obj osid (some lang)) st).2 = []
    ∧ (leave sock (.obj osid (some lang)) st).1.subscriberTracker = st.subscriberTracker
    ∧ (leave sock (.obj osid (some lang)) st).1.serviceLanguageMap = st.serviceLanguageMap
    ∧ (leave sock (.obj osid (some lang)) st).2 = [] := by
  rcases h with h | h <;> subst h <;>
    simp [join, leave, reconcileRoom, parsePayload,
      apply_ite ServerState.subscriberTracker,
      apply_ite ServerState.serviceLanguageMap]

theorem not_mem_listRemove {α : Type} [DecidableEq α] (l : List α) (a : α) :
    a ∉ listRemove l a := by
  induction l with
  | nil => simp [listRemove]
  | cons b r ih =>
      by_cases h : b = a
      · simpa [listRemove, h] using ih
      · simp only [listRemove, if_neg h, List.mem_cons, not_or]
        exact ⟨fun hh => h hh.symm, ih⟩

theorem not_mem_adapterLeave (rooms : List (String × List String)) (room sock : String) :
    sock ∉ (mapGet (adapterLeave rooms room sock) room).getD [] := by
  unfold adapterLeave
  rcases hm : mapGet rooms room with _ | ms
  · simp [hm]
  · simp [mapGet_set_self, not_mem_listRemove]

theorem reconcileRoom_adapterRooms (sid : JSStr) (language room : String)
    (st : ServerState) :
    (reconcileRoom sid language room st).1.adapterRooms = st.adapterRooms := by
  by_cases hres : language = "transcript" ∨ language = "heartbeat"
  · simp [reconcileRoom, if_pos hres]
  · rcases hm : mapGet st.subscriberTracker sid with _ | m0
    · simp [reconcileRoom, if_neg hres, hm]
    · rcases hc : mapGet m0 language with _ | count
      · simp [reconcileRoom, if_neg hres, hm, hc]
      · simp [reconcileRoom, if_neg hres, hm, hc,
          apply_ite (fun p : ServerState × List Emit => ServerState.adapterRooms p.1)]

theorem leave_missing_trackerCount (st : ServerState) (sock lang : String)
    (h0 : lang ≠ "") (h1 : lang ≠ "transcript") (h2 : lang ≠ "heartbeat") :
    trackerCount (leave sock (.obj none (some lang)) st).1 none lang
      = max 0 (trackerCount st none lang - 1) := by
  have hne : ¬(lang = "transcript" ∨ lang = "heartbeat") := by simp [h1, h2]
  simp only [leave, parsePayload, if_neg h0, jsStr, reconcileRoom, if_neg hne]
  rcases hm : mapGet st.subscriberTracker none with _ | m
  · simp [trackerCount, hm, mapGet]
  · rcases hc : mapGet m lang with _ | count
    · simp [trackerCount, hm, hc]
    · by_cases hle : count ≤ 1
      · by_cases hrs : roomSize (adapterLeave st.adapterRooms ("undefined:" ++ lang) sock)
            ("undefined:" ++ lang) = 0 <;>
          by_cases hnil : mapDelete m lang = [] <;>
          simp [trackerCount, hm, hc, hle, hrs, hnil, mapGet_delete_self,
            mapGet_set_self, mapGet]
      · have hnn : mapSet m lang (count - 1) ≠ [] := mapSet_ne_nil _ _ _
        by_cases hrs : roomSize (adapterLeave st.adapterRooms ("undefined:" ++ lang) sock)
            ("undefined:" ++ lang) = 0 <;>
          simp [trackerCount, hm, hc, hle, hrs, hnn, mapGet_set_self]
        all_goals omega

/-- C7, amended.  A join or leave whose object payload lacks a
serviceId is NOT rejected: both handlers proceed with the undefined
serviceId.  On join the socket is added to the adapter room
"undefined:<language>", the translation wiring is registered for the
undefined service, and (for a non-reserved language) the subscriber
count stored under the undefined key is incremented by 1.  On leave
the socket is removed from the adapter room "undefined:<language>" and
the count under the undefined key is decremented if present, floored
at 0 (unchanged when absent).  The connection is not torn down. -/
theorem C7_missing_serviceId_amended (st : ServerState) (sock lang : String)
    (h0 : lang ≠ "") (h1 : lang ≠ "transcript") (h2 : lang ≠ "heartbeat") :
    sock ∈ (mapGet (join sock (.obj none (some lang)) st).1.adapterRooms
        ("undefined:" ++ lang)).getD []
    ∧ none ∈ (join sock (.obj none (some lang)) st).1.serviceSubscriptionMap
    ∧ trackerCount (join sock (.obj none (some lang)) st).1 none lang
        = trackerCount st none lang + 1
    ∧ sock ∉ (mapGet (leave sock (.obj none (some lang)) st).1.adapterRooms
        ("undefined:" ++ lang)).getD []
    ∧ trackerCount (leave sock (.obj none (some lang)) st).1 none lang
        = max 0 (trackerCount st none lang - 1) := by
  have hroom : jsStr none ++ ":" ++ lang = "undefined:" ++ lang := rfl
  have hne : ¬(lang = "transcript" ∨ lang = "heartbeat") := by simp [h1, h2]
  refine ⟨?_, ?_, ?_, ?_, leave_missing_trackerCount st sock lang h0 h1 h2⟩
  · simp only [join, parsePayload, if_neg h0, hroom, if_neg hne,
      apply_ite ServerState.adapterRooms]
    rw [ite_self]
    simp only [adapterJoin, mapGet_set_self, Option.getD_some]
    exact mem_listInsert_self _ _
  · simp only [join, parsePayload, if_neg h0, hroom, if_neg hne]
    split
    · next hmem => exact hmem
    · next hmem => exact mem_listInsert_self _ _
  · simp only [join, parsePayload, if_neg h0, hroom, if_neg hne, trackerCount,
      apply_ite ServerState.subscriberTracker]
    rw [ite_self]
    by_cases hs : (mapGet st.subscriberTracker none).isSome
    · simp only [if_pos hs, mapGet_set_self, Option.getD_some]
    · simp only [if_neg hs, mapGet_set_self, Option.getD_some]
      rw [Option.not_isSome_iff_eq_none] at hs
      simp [mapGet_set_self, hs, mapGet]
  · have hadapter : (leave sock (.obj none (some lang)) st).1.adapterRooms
        = adapterLeave st.adapterRooms ("undefined:" ++ lang) sock := by
      simp only [leave, parsePayload, if_neg h0, hroom, reconcileRoom_adapterRooms]
    rw [hadapter]
    exact not_mem_adapterLeave _ _ _

/-- C3, amended.  On leave (or per-room disconnect cleanup, which runs
the identical block) of a real (non-reserved) language room, the count
for the pair is lowered by 1 floored at 0 (the entry is deleted when it
would reach 0), and the language-deactivation side effect
(`removeTranslationLanguageFromService`) fires if and only if the
tracker had an entry for the pair AND the transport room membership
size after the leave is 0 — the room size alone is the final word, and
the deactivation can fire even when the decremented count has not
reached 0. -/
theorem C3_decrement_amended (st : ServerState) (sock sid lang : String)
    (h0 : lang ≠ "") (h1 : lang ≠ "transcript") (h2 : lang ≠ "heartbeat") :
    trackerCount (leave sock (.obj (some sid) (some lang)) st).1 (some sid) lang
        = max 0 (trackerCount st (some sid) lang - 1)
    ∧ (Emit.removeLang (some sid) lang ∈ (leave sock (.obj (some sid) (some lang)) st).2
        ↔ ((mapGet ((mapGet st.subscriberTracker (some sid)).getD []) lang).isSome = true
            ∧ roomSize (adapterLeave st.adapterRooms (sid ++ ":" ++ lang) sock)
                (sid ++ ":" ++ lang) = 0)) := by
  have hne : ¬(lang = "transcript" ∨ lang = "heartbeat") := by simp [h1, h2]
  simp only [leave, parsePayload, if_neg h0, jsStr, reconcileRoom, if_neg hne]
  rcases hm : mapGet st.subscriberTracker (some sid) with _ | m
  · simp [trackerCount, hm, mapGet]
  · rcases hc : mapGet m lang with _ | count
    · simp [trackerCount, hm, hc]
    · by_cases hle : count ≤ 1
      · by_cases hrs : roomSize (adapterLeave st.adapterRooms (sid ++ ":" ++ lang) sock)
            (sid ++ ":" ++ lang) = 0 <;>
          by_cases hnil : mapDelete m lang = [] <;>
          simp [trackerCount, hm, hc, hle, hrs, hnil, mapGet_delete_self,
            mapGet_set_self, mapGet]
      · have hnn : mapSet m lang (count - 1) ≠ [] := mapSet_ne_nil _ _ _
        by_cases hrs : roomSize (adapterLeave st.adapterRooms (sid ++ ":" ++ lang) sock)
            (sid ++ ":" ++ lang) = 0 <;>
          simp [trackerCount, hm, hc, hle, hrs, hnn, mapGet_set_self]
        all_goals omega

/-- C9.  A raw WebSocket connection whose URL carries no serviceId (or
an empty one — both are falsy in the guard) is terminated immediately
with the connection list untouched; consequently non-emptiness of every
stored serviceId key is preserved by the connection and the close
handlers. -/
theorem C9_wss_serviceId_guard (st : WssState) (cid : Nat) (q : Option String)
    (sid : String) (hinv : wssKeysNonEmpty st) :
    wssConnection cid none st = (true, st)
    ∧ wssConnection cid (some "") st = (true, st)
    ∧ wssKeysNonEmpty (wssConnection cid q st).2
    ∧ wssKeysNonEmpty (wssClose sid cid st) := by
  refine ⟨rfl, by simp [wssConnection], ?_, ?_⟩
  · rcases q with _ | s
    · exact hinv
    · by_cases hs : s = ""
      · simpa [wssConnection, hs] using hinv
      · intro p hp
        simp only [wssConnection, if_neg hs] at hp
        rcases mem_mapSet hp with h | h
        · rw [h]; exact hs
        · exact hinv p h
  · unfold wssClose
    rcases hget : mapGet st sid with _ | conns
    · exact hinv
    · by_cases hnil : listRemoveOne conns cid = []
      · simp only [hnil, if_pos rfl]
        intro p hp
        exact hinv p (mem_mapDelete hp)
      · simp only [if_neg hnil]
        have hsid : sid ≠ "" := hinv (sid, conns) (mapGet_mem hget)
        intro p hp
        rcases mem_mapSet hp with h | h
        · rw [h]
          exact hsid
        · exact hinv p h

/-- C8.  For a service whose active-language set is `langs` (with no
duplicate languages), a `transcriptReady` event produces exactly one
translated message per active language, published to the room of that
language with the translated text of that language, and exactly one mirrored
`newTranscript` event carrying the transcript and the timestamp.  The
per-language distribution is the spec-modelled `translationFanout`
(the code hands the transcript to the missing translation system). -/
theorem C8_transcript_fanout (st : ServerState) (tr : String → String → String)
    (now : Nat) (serviceCode transcript : String) (langs : List String)
    (hm : mapGet st.serviceLanguageMap (some serviceCode) = some langs)
    (hnd : langs.Nodup) :
    (∀ lang ∈ langs,
      (transcriptReady tr now serviceCode transcript st).countP
        (fun e => e = Emit.translated (serviceCode ++ ":" ++ lang) lang (tr lang transcript)) = 1)
    ∧ (transcriptReady tr now serviceCode transcript st).countP
        (fun e => e = Emit.newTranscript serviceCode transcript now) = 1 := by
  have hfan : translationFanout tr serviceCode transcript st.serviceLanguageMap
      = langs.map (fun l => Emit.translated (serviceCode ++ ":" ++ l) l (tr l transcript)) := by
    simp [translationFanout, hm]
  constructor
  · intro lang hlang
    have key : ∀ ls : List String, ls.Nodup →
        (ls.map (fun l => Emit.translated (serviceCode ++ ":" ++ l) l (tr l transcript))).countP
          (fun e => e = Emit.translated (serviceCode ++ ":" ++ lang) lang (tr lang transcript))
        = if lang ∈ ls then 1 else 0 := by
      intro ls
      induction ls with
      | nil => simp
      | cons a r ih =>
          intro hd
          rcases List.nodup_cons.mp hd with ⟨ha, hr⟩
          by_cases hal : a = lang
          · subst hal
            simp [List.countP_cons, ih hr, ha]
          · have hla : ¬lang = a := fun h => hal h.symm
            simp [List.countP_cons, ih hr, hal, hla]
    simp only [transcriptReady, hfan, List.countP_append, key langs hnd, if_pos hlang,
      List.countP_cons, List.countP_nil]
    simp
  · simp only [transcriptReady, hfan, List.countP_append]
    have : (langs.map (fun l => Emit.translated (serviceCode ++ ":" ++ l) l (tr l transcript))).countP
        (fun e => e = Emit.newTranscript serviceCode transcript now) = 0 := by
      rw [List.countP_eq_zero]
      intro e he
      rcases List.mem_map.mp he with ⟨l, _, rfl⟩
      simp
    simp [this, List.countP_cons]

theorem join_trackerShape (sock sid lang : String) (st : ServerState) (n : Nat)
    (h0 : lang ≠ "") (h1 : lang ≠ "transcript") (h2 : lang ≠ "heartbeat")
    (hst : st.subscriberTracker = trackerShape sid lang n) :
    (join sock (.obj (some sid) (some lang)) st).1.subscriberTracker
      = trackerShape sid lang (n + 1) := by
  have hne : ¬(lang = "transcript" ∨ lang = "heartbeat") := by simp [h1, h2]
  simp only [join, parsePayload, if_neg h0, if_neg hne,
    apply_ite ServerState.subscriberTracker]
  rw [ite_self]
  by_cases hn : n = 0
  · subst hn
    simp [hst, trackerShape, mapGet, mapSet]
  · simp [hst, trackerShape, hn, mapGet, mapSet]

theorem leave_trackerShape (sock sid lang : String) (st : ServerState) (n : Nat)
    (h0 : lang ≠ "") (h1 : lang ≠ "transcript") (h2 : lang ≠ "heartbeat")
    (hst : st.subscriberTracker = trackerShape sid lang n) :
    (leave sock (.obj (some sid) (some lang)) st).1.subscriberTracker
      = trackerShape sid lang (n - 1) := by
  have hne : ¬(lang = "transcript" ∨ lang = "heartbeat") := by simp [h1, h2]
  simp only [leave, parsePayload, if_neg h0, reconcileRoom, if_neg hne]
  by_cases hn : n = 0
  · subst hn
    simp [hst, trackerShape, mapGet]
  · by_cases hn1 : n = 1
    · subst hn1
      simp [hst, trackerShape, mapGet, mapSet, mapDelete,
        apply_ite (fun p : ServerState × List Emit => ServerState.subscriberTracker p.1)]
    · have h2le : ¬((n : Int) ≤ 1) := by omega
      have hnm : ¬(n - 1 = 0) := by omega
      simp [hst, trackerShape, hn, hn1, hnm, mapGet, mapSet, h2le,
        apply_ite (fun p : ServerState × List Emit => ServerState.subscriberTracker p.1)]
      omega

theorem runPair_trackerShape (sid lang : String)
    (h0 : lang ≠ "") (h1 : lang ≠ "transcript") (h2 : lang ≠ "heartbeat") :
    ∀ (evs : List PEvent) (st : ServerState) (n : Nat),
      st.subscriberTracker = trackerShape sid lang n →
      (runPair sid lang evs st).subscriberTracker
        = trackerShape sid lang
            (evs.foldl (fun k e => match e with | .join _ => k + 1 | .leave _ => k - 1) n) := by
  intro evs
  induction evs with
  | nil =>
      intro st n h
      simpa [runPair] using h
  | cons e r ih =>
      intro st n h
      cases e with
      | join sock =>
          simpa [runPair, List.foldl_cons] using
            ih _ (n + 1) (join_trackerShape sock sid lang st n h0 h1 h2 h)
      | leave sock =>
          simpa [runPair, List.foldl_cons] using
            ih _ (n - 1) (leave_trackerShape sock sid lang st n h0 h1 h2 h)

/-- C2.  For every sequence of join and leave events on one fixed
(serviceId, language) pair (language not a reserved channel), by any
sockets, the subscriber count stored for the pair after the sequence
equals the net number of joins not yet matched by a leave (each leave
cancels one outstanding join when one exists), the count is never
negative, and a count that would reach 0 is realised by deleting the
tracker entry (the service key is present exactly when the net count is
positive). -/
theorem C2_ledger_balance (sid lang : String) (evs : List PEvent)
    (h0 : lang ≠ "") (h1 : lang ≠ "transcript") (h2 : lang ≠ "heartbeat") :
    trackerCount (runPair sid lang evs initialState) (some sid) lang = (netJoins evs : Int)
    ∧ 0 ≤ trackerCount (runPair sid lang evs initialState) (some sid) lang
    ∧ (mapGet (runPair sid lang evs initialState).subscriberTracker (some sid) = none
        ↔ netJoins evs = 0) := by
  have hsh := runPair_trackerShape sid lang h0 h1 h2 evs initialState 0
    (by simp [initialState, trackerShape])
  have hnet : (evs.foldl (fun k e => match e with | .join _ => k + 1 | .leave _ => k - 1) 0)
      = netJoins evs := rfl
  rw [hnet] at hsh
  by_cases hz : netJoins evs = 0 <;>
    simp [trackerCount, hsh, trackerShape, hz, mapGet]

theorem mem_mapDelete_ne {κ α : Type} [DecidableEq κ] {m : List (κ × α)} {k : κ}
    {p : κ × α} (hp : p ∈ mapDelete m k) : p ∈ m ∧ p.1 ≠ k := by
  induction m with
  | nil => simp [mapDelete] at hp
  | cons q r ih =>
      obtain ⟨k', v'⟩ := q
      by_cases h : k' = k
      · simp only [mapDelete, if_pos h] at hp
        exact ⟨List.mem_cons_of_mem _ (ih hp).1, (ih hp).2⟩
      · simp only [mapDelete, if_neg h, List.mem_cons] at hp
        rcases hp with h1 | h1
        · subst h1
          exact ⟨List.mem_cons_self _ _, h⟩
        · exact ⟨List.mem_cons_of_mem _ (ih h1).1, (ih h1).2⟩

theorem mem_mapSet_mapSet {κ α : Type} [DecidableEq κ] {m : List (κ × α)} {k : κ}
    {w v : α} {p : κ × α} (hp : p ∈ mapSet (mapSet m k w) k v) :
    p = (k, v) ∨ p ∈ m := by
  induction m with
  | nil =>
      simp [mapSet] at hp
      exact Or.inl hp
  | cons q r ih =>
      obtain ⟨k', v'⟩ := q
      by_cases h : k' = k
      · simp only [mapSet, if_pos h] at hp
        simp [mapSet] at hp
        rcases hp with h1 | h1
        · exact Or.inl (by simp [h1])
        · exact Or.inr (List.mem_cons_of_mem _ h1)
      · simp only [mapSet, if_neg h, List.mem_cons] at hp
        rcases hp with h1 | h1
        · exact Or.inr (h1 ▸ List.mem_cons_self _ _)
        · rcases ih h1 with h2 | h2
          · exact Or.inl h2
          · exact Or.inr (List.mem_cons_of_mem _ h2)

theorem join_split (sock : String) (payload : JoinPayload) (st : ServerState) :
    ((join sock payload st).1.subscriberTracker = st.subscriberTracker
      ∧ (join sock payload st).2 = [])
    ∨ ∃ m0,
        (mapGet st.subscriberTracker (parsePayload payload).1 = some m0
          ∨ (mapGet st.subscriberTracker (parsePayload payload).1 = none ∧ m0 = []))
        ∧ (join sock payload st).1.subscriberTracker
            = mapSet
                (if (mapGet st.subscriberTracker (parsePayload payload).1).isSome
                 then st.subscriberTracker
                 else mapSet st.subscriberTracker (parsePayload payload).1 [])
                (parsePayload payload).1
                (mapSet m0 (parsePayload payload).2
                  ((mapGet m0 (parsePayload payload).2).getD 0 + 1))
        ∧ (join sock payload st).2
            = [Emit.addLang (parsePayload payload).1 (parsePayload payload).2,
               Emit.subscribers (parsePayload payload).1
                 (mapSet m0 (parsePayload payload).2
                   ((mapGet m0 (parsePayload payload).2).getD 0 + 1))] := by
  by_cases hres : (parsePayload payload).2 = "transcript" ∨ (parsePayload payload).2 = "heartbeat"
  · left
    constructor
    · simp [join, if_pos hres, apply_ite ServerState.subscriberTracker]
    · simp [join, if_pos hres]
  · right
    rcases hm : mapGet st.subscriberTracker (parsePayload payload).1 with _ | m0
    · refine ⟨[], Or.inr ⟨rfl, rfl⟩, ?_, ?_⟩ <;>
        simp [join, if_neg hres, apply_ite ServerState.subscriberTracker, hm,
          mapGet_set_self]
    · refine ⟨m0, Or.inl rfl, ?_, ?_⟩ <;>
        simp [join, if_neg hres, apply_ite ServerState.subscriberTracker, hm]

theorem reconcileRoom_split (sid : JSStr) (language room : String) (st : ServerState) :
    ((reconcileRoom sid language room st).1.subscriberTracker = st.subscriberTracker
      ∧ (reconcileRoom sid language room st).2 = [])
    ∨ ∃ m0 count,
        mapGet st.subscriberTracker sid = some m0
        ∧ mapGet m0 language = some count
        ∧ (((if count ≤ 1 then mapDelete m0 language
              else mapSet m0 language (count - 1)) = []
             ∧ (reconcileRoom sid language room st).1.subscriberTracker
                = mapDelete (mapSet st.subscriberTracker sid
                    (if count ≤ 1 then mapDelete m0 language
                     else mapSet m0 language (count - 1))) sid)
            ∨ ((if count ≤ 1 then mapDelete m0 language
                 else mapSet m0 language (count - 1)) ≠ []
             ∧ (reconcileRoom sid language room st).1.subscriberTracker
                = mapSet st.subscriberTracker sid
                    (if count ≤ 1 then mapDelete m0 language
                     else mapSet m0 language (count - 1))))
        ∧ ((reconcileRoom sid language room st).2
              = [Emit.subscribers sid
                  (if count ≤ 1 then mapDelete m0 language
                   else mapSet m0 language (count - 1))]
           ∨ (reconcileRoom sid language room st).2
              = [Emit.removeLang sid language,
                 Emit.subscribers sid
                   (if count ≤ 1 then mapDelete m0 language
                    else mapSet m0 language (count - 1))]) := by
  by_cases hres : language = "transcript" ∨ language = "heartbeat"
  · left
    constructor <;> simp [reconcileRoom, if_pos hres]
  · rcases hm : mapGet st.subscriberTracker sid with _ | m0
    · left
      constructor <;> simp [reconcileRoom, if_neg hres, hm]
    · rcases hc : mapGet m0 language with _ | count
      · left
        constructor <;> simp [reconcileRoom, if_neg hres, hm, hc]
      · right
        refine ⟨m0, count, rfl, hc, ?_, ?_⟩
        · by_cases hnil : (if count ≤ 1 then mapDelete m0 language
              else mapSet m0 language (count - 1)) = []
          · left
            refine ⟨hnil, ?_⟩
            simp [reconcileRoom, if_neg hres, hm, hc, hnil,
              apply_ite (fun p : ServerState × List Emit => ServerState.subscriberTracker p.1)]
          · right
            refine ⟨hnil, ?_⟩
            simp [reconcileRoom, if_neg hres, hm, hc, hnil,
              apply_ite (fun p : ServerState × List Emit => ServerState.subscriberTracker p.1)]
        · by_cases hrs : roomSize st.adapterRooms room = 0
          · right
            simp [reconcileRoom, if_neg hres, hm, hc, hrs,
              apply_ite (fun p : ServerState × List Emit => p.2)]
          · left
            simp [reconcileRoom, if_neg hres, hm, hc, hrs,
              apply_ite (fun p : ServerState × List Emit => p.2)]

theorem goodTracker_reconcile (st : ServerState) (h : goodTracker st) (sid : JSStr)
    (language room : String) :
    goodTracker (reconcileRoom sid language room st).1
    ∧ goodSnapshots (reconcileRoom sid language room st).2 := by
  rcases reconcileRoom_split sid language room st with ⟨ht, he⟩ | ⟨m0, count, hm, hc, hsp, hem⟩
  · constructor
    · intro p hp; rw [ht] at hp; exact h p hp
    · intro e he'; rw [he] at he'; simp at he'
  · have hin0 : ∀ q ∈ m0, 1 ≤ q.2 := (h _ (mapGet_mem hm)).2
    have hminner : ∀ q ∈ (if count ≤ 1 then mapDelete m0 language
        else mapSet m0 language (count - 1)), 1 ≤ q.2 := by
      by_cases hle : count ≤ 1
      · rw [if_pos hle]
        intro q hq
        exact hin0 _ (mem_mapDelete_ne hq).1
      · rw [if_neg hle]
        intro q hq
        rcases mem_mapSet hq with h1 | h1
        · have hcount : 1 ≤ count := hin0 _ (mapGet_mem hc)
          subst h1
          simp
          omega
        · exact hin0 _ h1
    constructor
    · rcases hsp with ⟨hnil, htr⟩ | ⟨hnn, htr⟩
      · intro p hp
        rw [htr] at hp
        rcases mem_mapDelete_ne hp with ⟨hp1, hp2⟩
        rcases mem_mapSet hp1 with h1 | h1
        · exact absurd (by rw [h1]) hp2
        · exact h p h1
      · intro p hp
        rw [htr] at hp
        rcases mem_mapSet hp with h1 | h1
        · subst h1
          exact ⟨hnn, hminner⟩
        · exact h p h1
    · intro e he' sid' ls hls q hq
      rcases hem with hem | hem <;> rw [hem] at he' <;>
        simp only [List.mem_cons, List.mem_singleton] at he'
      · rcases he' with he' | he'
        · subst he'
          simp only [Emit.subscribers.injEq] at hls
          rcases hls with ⟨_, hls2⟩
          subst hls2
          exact hminner q hq
        · simp at he'
      · rcases he' with he' | he' | he'
        · subst he'; simp at hls
        · subst he'
          simp only [Emit.subscribers.injEq] at hls
          rcases hls with ⟨_, hls2⟩
          subst hls2
          exact hminner q hq
        · simp at he'

theorem goodTracker_join (st : ServerState) (h : goodTracker st)
    (sock : String) (payload : JoinPayload) :
    goodTracker (join sock payload st).1 ∧ goodSnapshots (join sock payload st).2 := by
  rcases join_split sock payload st with ⟨ht, he⟩ | ⟨m0, hm01, htr, hem⟩
  · constructor
    · intro p hp; rw [ht] at hp; exact h p hp
    · intro e he'; rw [he] at he'; simp at he'
  · have hin0 : ∀ q ∈ m0, 1 ≤ q.2 := by
      rcases hm01 with hm0 | ⟨hm0, hnil⟩
      · exact (h _ (mapGet_mem hm0)).2
      · subst hnil; intro q hq; simp at hq
    have hcur : 0 ≤ (mapGet m0 (parsePayload payload).2).getD 0 := by
      rcases hcc : mapGet m0 (parsePayload payload).2 with _ | c
      · simp
      · have := hin0 _ (mapGet_mem hcc)
        simp at this ⊢
        omega
    have hminner : ∀ q ∈ mapSet m0 (parsePayload payload).2
        ((mapGet m0 (parsePayload payload).2).getD 0 + 1), 1 ≤ q.2 := by
      intro q hq
      rcases mem_mapSet hq with h1 | h1
      · subst h1; simp; omega
      · exact hin0 _ h1
    constructor
    · intro p hp
      rw [htr] at hp
      rcases hm01 with hm0 | ⟨hm0, hnil⟩
      · rw [hm0] at hp
        simp only [Option.isSome_some, if_pos] at hp
        rcases mem_mapSet hp with h1 | h1
        · subst h1
          exact ⟨mapSet_ne_nil _ _ _, hminner⟩
        · exact h p h1
      · rw [hm0] at hp
        simp only [Option.isSome_none, Bool.false_eq_true, if_false] at hp
        rcases mem_mapSet_mapSet hp with h1 | h1
        · subst h1
          exact ⟨mapSet_ne_nil _ _ _, hminner⟩
        · exact h p h1
    · intro e he' sid' ls hls q hq
      rw [hem] at he'
      simp only [List.mem_cons, List.mem_singleton] at he'
      rcases he' with he' | he' | he'
      · subst he'; simp at hls
      · subst he'
        simp only [Emit.subscribers.injEq] at hls
        rcases hls with ⟨_, hls2⟩
        subst hls2
        exact hminner q hq
      · simp at he'

theorem goodTracker_foldReconcile (entries : List (String × JSStr × String)) :
    ∀ pr : ServerState × List Emit, goodTracker pr.1 → goodSnapshots pr.2 →
      goodTracker ((entries.foldl
          (fun (acc : ServerState × List Emit) e =>
            let r' := reconcileRoom e.2.1 e.2.2 e.1 acc.1
            (r'.1, acc.2 ++ r'.2)) pr).1)
      ∧ goodSnapshots ((entries.foldl
          (fun (acc : ServerState × List Emit) e =>
            let r' := reconcileRoom e.2.1 e.2.2 e.1 acc.1
            (r'.1, acc.2 ++ r'.2)) pr).2) := by
  induction entries with
  | nil => intro pr h1 h2; exact ⟨h1, h2⟩
  | cons e r ih =>
      intro pr h1 h2
      simp only [List.foldl_cons]
      apply ih
      · exact (goodTracker_reconcile pr.1 h1 e.2.1 e.2.2 e.1).1
      · intro e' he' sid' ls hls q hq
        rcases List.mem_append.mp he' with hmem | hmem
        · exact h2 e' hmem sid' ls hls q hq
        · exact (goodTracker_reconcile pr.1 h1 e.2.1 e.2.2 e.1).2 e' hmem sid' ls hls q hq

theorem goodTracker_disconnect (st : ServerState) (h : goodTracker st) (sock : String) :
    goodTracker (disconnect sock st).1 ∧ goodSnapshots (disconnect sock st).2 := by
  simp only [disconnect]
  exact goodTracker_foldReconcile _ _ h (fun e he => by simp at he)

/-- C10.  Provided every stored tracker count is at least 1 and no
service holds an empty language map (true initially and preserved),
the join, leave and disconnect handlers preserve this invariant and
every `subscribers` snapshot they emit to the monitor audience lists
only languages whose subscriber count is at least 1: a count reaching 0
is realised by deleting the language entry before the snapshot is
built, and a service whose tracker empties is removed entirely. -/
theorem C10_snapshots_positive (st : ServerState) (h : goodTracker st)
    (sock : String) (payload : JoinPayload) :
    (goodTracker (join sock payload st).1 ∧ goodSnapshots (join sock payload st).2)
    ∧ (goodTracker (leave sock payload st).1 ∧ goodSnapshots (leave sock payload st).2)
    ∧ (goodTracker (disconnect sock st).1 ∧ goodSnapshots (disconnect sock st).2) := by
  refine ⟨goodTracker_join st h sock payload, ?_, goodTracker_disconnect st h sock⟩
  simp only [leave]
  apply goodTracker_reconcile
  intro p hp
  exact h p hp

/-- C1.  A socket that has joined several rooms has ALL of them
reconciled on disconnect, not just the most recently joined one: after
joining a real language room of one service, the reserved transcript
room, and a real language room of another (or the same) service, the
disconnect handler removes all subscriber-tracker entries it created,
deactivates both languages (the adapter rooms being empty), and clears
the tracking map of the socket. -/
theorem C1_disconnect_reconciles_all (sock sidA langA sidB langB : String)
    (hA0 : langA ≠ "") (hA1 : langA ≠ "transcript") (hA2 : langA ≠ "heartbeat")
    (hB0 : langB ≠ "") (hB1 : langB ≠ "transcript") (hB2 : langB ≠ "heartbeat")
    (hpair : ¬(sidA = sidB ∧ langA = langB))
    (hroomAB : sidA ++ ":" ++ langA ≠ sidB ++ ":" ++ langB)
    (hroomAT : sidA ++ ":" ++ langA ≠ sidA ++ ":" ++ "transcript")
    (hroomBT : sidB ++ ":" ++ langB ≠ sidA ++ ":" ++ "transcript") :
    mapGet (disconnect sock
        (join sock (.obj (some sidB) (some langB))
          (join sock (.obj (some sidA) (some "transcript"))
            (join sock (.obj (some sidA) (some langA)) initialState).1).1).1).1.subscriberTracker
      (some sidA) = none
    ∧ mapGet (disconnect sock
        (join sock (.obj (some sidB) (some langB))
          (join sock (.obj (some sidA) (some "transcript"))
            (join sock (.obj (some sidA) (some langA)) initialState).1).1).1).1.subscriberTracker
      (some sidB) = none
    ∧ srGet (disconnect sock
        (join sock (.obj (some sidB) (some langB))
          (join sock (.obj (some sidA) (some "transcript"))
            (join sock (.obj (some sidA) (some langA)) initialState).1).1).1).1 sock = []
    ∧ langA ∉ (mapGet (disconnect sock
        (join sock (.obj (some sidB) (some langB))
          (join sock (.obj (some sidA) (some "transcript"))
            (join sock (.obj (some sidA) (some langA)) initialState).1).1).1).1.serviceLanguageMap
      (some sidA)).getD []
    ∧ langB ∉ (mapGet (disconnect sock
        (join sock (.obj (some sidB) (some langB))
          (join sock (.obj (some sidA) (some "transcript"))
            (join sock (.obj (some sidA) (some langA)) initialState).1).1).1).1.serviceLanguageMap
      (some sidB)).getD [] := by
  have hA1' := Ne.symm hA1
  have hA2' := Ne.symm hA2
  have hB1' := Ne.symm hB1
  have hB2' := Ne.symm hB2
  have hAB' := Ne.symm hroomAB
  have hAT' := Ne.symm hroomAT
  have hBT' := Ne.symm hroomBT
  by_cases hs : sidA = sidB
  · subst hs
    have hlang : langA ≠ langB := fun h => hpair ⟨rfl, h⟩
    have hlang' := Ne.symm hlang
    simp [join, leave, disconnect, reconcileRoom, parsePayload, jsStr, srGet,
      initialState, mapGet, mapSet, mapDelete, listInsert, listRemove,
      adapterJoin, adapterLeave, adapterDisconnect, roomSize,
      addTranslationLanguageToService, removeTranslationLanguageFromService,
      registerForServiceTranscripts,
      hA0, hA1, hA2, hB0, hB1, hB2, hA1', hA2', hB1', hB2',
      hroomAB, hroomAT, hroomBT, hAB', hAT', hBT', hlang, hlang']
  · have hs' := Ne.symm hs
    simp [join, leave, disconnect, reconcileRoom, parsePayload, jsStr, srGet,
      initialState, mapGet, mapSet, mapDelete, listInsert, listRemove,
      adapterJoin, adapterLeave, adapterDisconnect, roomSize,
      addTranslationLanguageToService, removeTranslationLanguageFromService,
      registerForServiceTranscripts,
      hA0, hA1, hA2, hB0, hB1, hB2, hA1', hA2', hB1', hB2',
      hroomAB, hroomAT, hroomBT, hAB', hAT', hBT', hs, hs']

/-- Witness for C1 at the three rooms of the spec example. -/
theorem C1_disconnect_witness :
    mapGet (disconnect "S"
        (join "S" (.obj (some "456") (some "fr"))
          (join "S" (.obj (some "123") (some "transcript"))
            (join "S" (.obj (some "123") (some "es")) initialState).1).1).1).1.subscriberTracker
      (some "123") = none :=
  (C1_disconnect_reconciles_all "S" "123" "es" "456" "fr"
    (by decide) (by decide) (by decide) (by decide) (by decide) (by decide)
    (by decide) (by decide) (by decide) (by decide)).1

/-- Witness for C2 on a concrete event sequence. -/
theorem C2_ledger_witness :
    trackerCount (runPair "123" "es"
        [PEvent.join "a", PEvent.join "b", PEvent.leave "a"] initialState)
      (some "123") "es"
    = ((netJoins [PEvent.join "a", PEvent.join "b", PEvent.leave "a"] : Nat) : Int) :=
  (C2_ledger_balance "123" "es" [PEvent.join "a", PEvent.join "b", PEvent.leave "a"]
    (by decide) (by decide) (by decide)).1

/-- Witness for the amended C3 at a concrete leave. -/
theorem C3_decrement_witness :
    trackerCount (leave "A" (.obj (some "100") (some "es")) initialState).1
        (some "100") "es"
      = max 0 (trackerCount initialState (some "100") "es" - 1) :=
  (C3_decrement_amended initialState "A" "100" "es"
    (by decide) (by decide) (by decide)).1

/-- Witness for C6 on the reserved transcript channel. -/
theorem C6_reserved_witness :
    (join "A" (.obj (some "1") (some "transcript")) initialState).1.subscriberTracker
      = initialState.subscriberTracker :=
  (C6_reserved_channels initialState "A" (some "1") "transcript" (Or.inl rfl)).1

/-- Witness for the amended C7 at a concrete malformed join. -/
theorem C7_missing_witness :
    "A" ∈ (mapGet (join "A" (.obj none (some "es")) initialState).1.adapterRooms
        ("undefined:" ++ "es")).getD [] :=
  (C7_missing_serviceId_amended initialState "A" "es"
    (by decide) (by decide) (by decide)).1

/-- Witness for C8 at a service with two active languages. -/
theorem C8_fanout_witness :
    (transcriptReady (fun l _ => l) 0 "123" "hi"
        { initialState with serviceLanguageMap := [(some "123", ["es", "fr"])] }).countP
      (fun e => e = Emit.newTranscript "123" "hi" 0) = 1 :=
  (C8_transcript_fanout
    { initialState with serviceLanguageMap := [(some "123", ["es", "fr"])] }
    (fun l _ => l) 0 "123" "hi" ["es", "fr"] (by decide) (by decide)).2

/-- Witness for C9 on a concrete connection list. -/
theorem C9_wss_witness :
    wssKeysNonEmpty (wssConnection 7 (some "abc") [("123", [5])]).2 :=
  (C9_wss_serviceId_guard [("123", [5])] 7 (some "abc") "123"
    (by intro p hp; simp only [List.mem_singleton] at hp; subst hp; decide)).2.2.1

/-- Witness for C10 from the empty tracker. -/
theorem C10_snapshots_witness :
    goodTracker (join "A" (.obj (some "1") (some "es")) initialState).1 :=
  (C10_snapshots_positive initialState
    (by intro p hp; simp [initialState] at hp) "A" (.obj (some "1") (some "es"))).1.1
